import Mathlib

set_option maxRecDepth 8000
set_option exponentiation.threshold 1300

/-!
Verification of the shortify panning-video pipeline (`src/unnamed/part_000`).

The script converts a landscape video into a vertical "panning" derivative:
it extracts still frames at scene changes (falling back to fixed intervals),
derives per-frame timestamps, computes per-segment durations and panning
geometry, renders, and reattaches audio.  External processes (ffmpeg/ffprobe)
and the filesystem are modelled by an explicit environment record; JavaScript
numbers are modelled by exact rationals, with the one place where IEEE-754
binary64 semantics matters for the properties at hand (overflow of
`parseFloat` to Infinity) modelled explicitly.
-/

namespace SFHighlight

/-- A JavaScript number as produced by `parseFloat` on a nonempty string of
digits and dots: either a finite value (modelled by its exact decimal value;
rounding to the nearest binary64 preserves sign and finiteness below the
overflow threshold, which is all the properties here depend on) or positive
Infinity.  NaN is represented separately as `Option.none` at use sites,
mirroring the `isNaN` check in the source. -/
inductive JSNum where
  | finite (q : ℚ)
  | inf
deriving DecidableEq, Repr

/-- JavaScript `String.prototype.split('\n')`: the list of maximal
newline-free chunks, including empty ones (`"".split('\n')` is `[""]`). -/
def splitOnNl : List Char → List (List Char)
  | [] => [[]]
  | c :: rest =>
    if c = '\n' then [] :: splitOnNl rest
    else
      match splitOnNl rest with
      | l :: ls => (c :: l) :: ls
      | [] => [[c]]

/-- Character class `[\d\.]` of the regex `/pts_time:([\d\.]+)/` (line 38). -/
def isDigitOrDot (c : Char) : Bool := c.isDigit || c = '.'

/-- First match of the regex `/pts_time:([\d\.]+)/` on a line (line 38):
scan left to right for a position where the literal `pts_time:` is followed
by at least one digit-or-dot character; the captured group is the maximal
run of such characters ( `+` is greedy, and nothing after the group forces
backtracking). -/
def captureAfterMarker : List Char → Option (List Char)
  | [] => none
  | c :: rest =>
    if ("pts_time:".toList).isPrefixOf (c :: rest) then
      let tail := (c :: rest).drop 9
      let cap := tail.takeWhile isDigitOrDot
      if cap.isEmpty then captureAfterMarker rest else some cap
    else captureAfterMarker rest

/-- Numeric value of a decimal digit character. -/
def digVal (c : Char) : ℕ := c.toNat - '0'.toNat

/-- Value of a string of decimal digits (base 10, leading zeros allowed). -/
def digitsToNat (ds : List Char) : ℕ := ds.foldl (fun a c => a * 10 + digVal c) 0

/-- Exact value of the decimal numeral `ip.fp`, i.e.
`digitsToNat ip + digitsToNat fp / 10 ^ |fp|` (written with `mkRat` so that
it evaluates by kernel reduction). -/
def decimalValue (ip fp : List Char) : ℚ :=
  mkRat (Int.ofNat (digitsToNat ip * 10 ^ fp.length + digitsToNat fp)) (10 ^ fp.length)

/-- JavaScript `parseFloat` restricted to the nonempty digit-and-dot strings
produced by the capture group above (line 40): parse the longest prefix that
is a valid decimal literal — `d+`, `d+.d*` or `.d+` — and return its exact
value; return `none` (NaN) when no such prefix exists (the string is dots
only, or starts `..`). -/
def jsParseFloat (s : List Char) : Option ℚ :=
  match s with
  | [] => none
  | '.' :: r =>
    let fp := r.takeWhile Char.isDigit
    if fp.isEmpty then none else some (decimalValue [] fp)
  | c :: _ =>
    if c.isDigit then
      let ip := s.takeWhile Char.isDigit
      match s.drop ip.length with
      | '.' :: r => some (decimalValue ip (r.takeWhile Char.isDigit))
      | _ => some (decimalValue ip [])
    else none

/-- Smallest nonnegative real that IEEE-754 binary64 round-to-nearest,
ties-to-even sends to `+Infinity`. -/
def binary64OverflowThreshold : ℚ := mkRat (Int.ofNat (2 ^ 1024 - 2 ^ 970)) 1

/-- Rounding of a nonnegative exact value to a JavaScript number: values at
or above the overflow threshold become `Infinity` (which `isNaN` does NOT
reject); smaller values stay finite and are kept exact (binary64 rounding
preserves their sign and finiteness, which is all the claims depend on). -/
def jsDouble (q : ℚ) : JSNum :=
  if binary64OverflowThreshold ≤ q then JSNum.inf else JSNum.finite q

/-- Contribution of one stderr line to the timestamp list (lines 38–42):
the first regex match is parsed with `parseFloat`, and the value is pushed
unless `isNaN` holds for it. -/
def lineTimestamp (line : List Char) : Option JSNum :=
  match captureAfterMarker line with
  | none => none
  | some cap =>
    match jsParseFloat cap with
    | none => none
    | some q => some (jsDouble q)

/-- `extractSceneTimestampsFromShowinfo` (lines 32–45): split stderr into
lines and collect, in order, the parsed timestamp of every line whose first
`pts_time:` match parses to a non-NaN value. -/
def extractSceneTimestampsFromShowinfo (stderr : String) : List JSNum :=
  (splitOnNl stderr.toList).filterMap lineTimestamp

/-! ### Frame-file listing (lines 127–134 and 152–160)

`readdir` results are filtered to names starting with `frame_` and ending in
`.png`, then sorted by the number captured by `/frame_(\d+)\.png/`. -/

/-- The filter `file.startsWith('frame_') && file.endsWith('.png')`. -/
def frameFilter (f : String) : Bool :=
  ("frame_".toList).isPrefixOf f.toList && (".png".toList).isSuffixOf f.toList

/-- First match of `/frame_(\d+)\.png/` anywhere in a filename, returning the
value of the captured digit run.  At a candidate position the literal
`frame_` must be followed by at least one digit and then by `.png`; since the
character after a maximal digit run is not a digit, greedy `\d+` cannot
backtrack into a successful match, so only the maximal run is tried. -/
def findFrameNum : List Char → Option ℕ
  | [] => none
  | c :: rest =>
    if ("frame_".toList).isPrefixOf (c :: rest) then
      let tail := (c :: rest).drop 6
      let ds := tail.takeWhile Char.isDigit
      if ds.isEmpty then findFrameNum rest
      else if (".png".toList).isPrefixOf (tail.drop ds.length) then some (digitsToNat ds)
      else findFrameNum rest
    else findFrameNum rest

/-- Sort key used by the comparator `(a, b) => numA - numB`; the `getD` arm
is never reached on the well-formed names considered by `listFrames`. -/
def frameKey (f : String) : ℕ := (findFrameNum f.toList).getD 0

/-- Insertion into a key-sorted list, keeping earlier elements first among
equal keys (JavaScript `Array.prototype.sort` is stable). -/
def insertByKey (x : String) : List String → List String
  | [] => [x]
  | y :: ys => if frameKey x ≤ frameKey y then x :: y :: ys else y :: insertByKey x ys

/-- Stable ascending sort by `frameKey`. -/
def sortByKey : List String → List String
  | [] => []
  | x :: xs => insertByKey x (sortByKey xs)

/-- Filter-and-sort of a directory listing (lines 128–134).  With at most one
matching file the comparator is never invoked; with two or more, a matching
name on which `/frame_(\d+)\.png/` fails makes the comparator dereference
`null` and throw (`Except.error`), which propagates like any exception. -/
def listFrames (files : List String) : Except Unit (List String) :=
  let filtered := files.filter frameFilter
  if filtered.length ≤ 1 then Except.ok filtered
  else if filtered.all (fun f => (findFrameNum f.toList).isSome) then
    Except.ok (sortByKey filtered)
  else Except.error ()

/-! ### `extractStills` (lines 96–173)

External commands and filesystem contents are an explicit environment.
Flags whose failure the source handles by `process.exit(1)` inside
`safeExec` (lines 48–57) are distinguished from raw `execPromise` /
`fs.promises` calls whose failure throws to the caller. -/

/-- Environment of one `extractStills` run: outcomes of its external
commands and the relevant directory contents. -/
structure ExtractEnv where
  /-- `fs.promises.mkdir` (line 100) succeeds (a failure throws). -/
  mkdirOk : Bool
  /-- the scene-detection ffmpeg run under `safeExec` (line 108) succeeds
  (a failure makes `safeExec` exit the process). -/
  sceneExtractOk : Bool
  /-- stderr delivered by the showinfo pass (line 114), or `none` when that
  `execPromise` rejects (caught at line 121, setting the fallback flag). -/
  showinfoStderr : Option String
  /-- `fs.promises.readdir` calls (lines 127 and 153) succeed. -/
  readdirOk : Bool
  /-- contents of the stills directory after the scene-detection pass. -/
  sceneDirListing : List String
  /-- the fixed-interval ffmpeg run under `safeExec` (line 147) succeeds. -/
  fixedExtractOk : Bool
  /-- files written by the fixed-interval ffmpeg run (line 148). -/
  fixedEmitted : List String
  /-- the `ffprobe` queries of `getVideoInfo` (lines 62–74) succeed. -/
  videoInfoOk : Bool
  /-- parsed duration reported by `getVideoInfo`. -/
  duration : ℚ
deriving DecidableEq

/-- Value returned by `extractStills` (line 172; the constant `stillsDir`
path is omitted). -/
structure ExtractionResult where
  frameFiles : List String
  usedRegularIntervals : Bool
  timestamps : List JSNum
deriving DecidableEq

/-- How a stage of the script ends: normal return, `process.exit(1)` out of
`safeExec`, or an exception propagating to the caller. -/
inductive Outcome (α : Type) where
  | ok (a : α)
  | exit1
  | thrown
deriving DecidableEq

/-- The scene timestamps available after lines 113–124: the parsed showinfo
stderr, or `[]` when the showinfo command rejected. -/
def sceneTsOf (env : ExtractEnv) : List JSNum :=
  match env.showinfoStderr with
  | some stderr => extractSceneTimestampsFromShowinfo stderr
  | none => []

/-- Fallback timestamps (line 167): `i * (duration / frameCount)` for
`i = 0 .. frameCount - 1`. -/
def evenTimestamps (duration : ℚ) (frameCount : ℕ) : List JSNum :=
  (List.range frameCount).map
    (fun (i : ℕ) => JSNum.finite ((i : ℚ) * (duration / (frameCount : ℚ))))

/-- Lines 163–172: when no showinfo timestamps were captured and at least
one frame exists, probe the duration (a probe failure throws) and evenly
distribute it; then return. -/
def finishExtraction (usedRegular : Bool) (frames : List String) (ts : List JSNum)
    (env : ExtractEnv) : Outcome ExtractionResult :=
  if ts.length = 0 ∧ 0 < frames.length then
    if env.videoInfoOk = false then Outcome.thrown
    else Outcome.ok ⟨frames, usedRegular, evenTimestamps env.duration frames.length⟩
  else Outcome.ok ⟨frames, usedRegular, ts⟩

/-- Directory contents seen by the second `readdir` (line 153): the scene
frames listed at line 128 were unlinked (lines 142–144) and the
fixed-interval run wrote its own files. -/
def dirAfterFallback (env : ExtractEnv) (deleted : List String) : List String :=
  env.sceneDirListing.filter (fun f => !(deleted.contains f)) ++ env.fixedEmitted

/-- `extractStills` (lines 96–173). -/
def extractStills (env : ExtractEnv) : Outcome ExtractionResult :=
  if env.mkdirOk = false then Outcome.thrown
  else if env.sceneExtractOk = false then Outcome.exit1
  else if env.readdirOk = false then Outcome.thrown
  else
    match listFrames env.sceneDirListing with
    | Except.error _ => Outcome.thrown
    | Except.ok frames0 =>
      if frames0.length < 2 then
        if env.fixedExtractOk = false then Outcome.exit1
        else
          match listFrames (dirAfterFallback env frames0) with
          | Except.error _ => Outcome.thrown
          | Except.ok frames1 => finishExtraction true frames1 (sceneTsOf env) env
      else finishExtraction env.showinfoStderr.isNone frames0 (sceneTsOf env) env

/-! ### Per-segment durations (`createPanningVideo`, lines 262–271)

For frame `i` the script computes
`i < timestamps.length - 1 ? timestamps[i+1] - timestamps[i]
                           : videoInfo.duration - timestamps[i]`.
A JavaScript out-of-bounds index yields `undefined`, and arithmetic on it
yields NaN; `Option ℚ` mirrors number-or-NaN, `none` being NaN. -/

/-- Duration computed for frame index `i`.  The comparison
`i < timestamps.length - 1` is JavaScript number arithmetic, so it is taken
over `ℤ` (for an empty list the right side is `-1`, not `0`). -/
def segDurAt (timestamps : List ℚ) (duration : ℚ) (i : ℕ) : Option ℚ :=
  if (i : ℤ) < (timestamps.length : ℤ) - 1 then
    match timestamps[i + 1]?, timestamps[i]? with
    | some tNext, some tCur => some (tNext - tCur)
    | _, _ => none
  else
    match timestamps[i]? with
    | some tCur => some (duration - tCur)
    | none => none

/-- The sequence of segment durations for `frameCount` frames (the loop at
line 262 runs over `frameFiles`). -/
def segmentDurations (timestamps : List ℚ) (duration : ℚ) (frameCount : ℕ) : List (Option ℚ) :=
  (List.range frameCount).map (segDurAt timestamps duration)

/-- Sum of a duration sequence, NaN-propagating (`none` absorbs). -/
def sumDurations (l : List (Option ℚ)) : Option ℚ :=
  l.foldr
    (fun o acc =>
      match o, acc with
      | some d, some s => some (d + s)
      | _, _ => none)
    (some 0)

/-! ### Panning geometry (`createPanningVideo`, lines 231–256) -/

/-- Probe result of `getVideoInfo` (lines 60–81): parsed width, height and
duration.  Dimensions are `parseInt` results, durations `parseFloat`. -/
structure AssetInfo where
  width : ℤ
  height : ℤ
  durationSeconds : ℚ
deriving DecidableEq

/-- The geometric parameters computed at lines 235–254. -/
structure GeometryPlan where
  portraitWidth : ℤ
  portraitHeight : ℤ
  scaleFactor : ℚ
  scaledWidth : ℤ
  panDistance : ℤ
deriving DecidableEq

/-- Lines 235–254: select the output canvas from the source height
(`height ≥ 2160` picks 2160×3840 portrait, anything else 608×1080), scale
the source height to the canvas height, round the scaled width
(JavaScript `Math.round x = ⌊x + 1/2⌋`, which is Mathlib's `round`), and
take the pan distance as the horizontal overhang. -/
def planGeometry (info : AssetInfo) : GeometryPlan :=
  let portraitHeight : ℤ := if 2160 ≤ info.height then 3840 else 1080
  let portraitWidth : ℤ := if 2160 ≤ info.height then 2160 else 608
  let scaleFactor : ℚ := (portraitHeight : ℚ) / (info.height : ℚ)
  let scaledWidth : ℤ := round ((info.width : ℚ) * scaleFactor)
  { portraitWidth := portraitWidth
    portraitHeight := portraitHeight
    scaleFactor := scaleFactor
    scaledWidth := scaledWidth
    panDistance := scaledWidth - portraitWidth }

/-! ### Pipeline control flow (`processVideo`, lines 329–369; `safeExec`,
lines 48–57; `cleanup`, lines 311–326)

`safeExec` catches a command failure, logs it and calls `process.exit(1)` —
so the process terminates without ever reaching the temp-directory cleanup.
Exceptions from raw `execPromise`/`fs` calls propagate to `processVideo`'s
`catch`, which runs `cleanup([TEMP_DIR])` (itself wrapped so a cleanup
failure is only logged) and exits 1.  The success path runs the same
cleanup once and returns normally. -/

/-- Environment of one `processVideo` run. -/
structure PipelineEnv where
  /-- the initial `getVideoInfo` probes (line 334) succeed. -/
  probeOk : Bool
  /-- environment of the inner `extractStills` call (line 338). -/
  ex : ExtractEnv
  /-- the `getVideoInfo` probe inside `getFrameTimestamps` (line 177)
  succeeds; only consulted when `extractStills` returned no timestamps. -/
  getTsOk : Bool
  /-- the panning-video ffmpeg run under `safeExec` (line 287) succeeds. -/
  renderOk : Bool
  /-- the audio-extraction ffmpeg run under `safeExec` (line 296) succeeds. -/
  audioExtractOk : Bool
  /-- the mux ffmpeg run under `safeExec` (line 302) succeeds. -/
  muxOk : Bool
deriving DecidableEq

/-- Observable outcome of a `processVideo` run: the process exit status and
how many times `cleanup([TEMP_DIR])` was invoked. -/
structure RunResult where
  exitCode : ℕ
  cleanupRuns : ℕ
deriving DecidableEq

/-- `processVideo` (lines 329–369), tracking exit status and workspace
teardown.  `cleanup` itself never throws: every iteration of its loop is
wrapped in `try/catch` (lines 312–325), and the error-path call is further
guarded (lines 362–366). -/
def processVideo (env : PipelineEnv) : RunResult :=
  if env.probeOk = false then ⟨1, 1⟩
  else
    match extractStills env.ex with
    | Outcome.exit1 => ⟨1, 0⟩
    | Outcome.thrown => ⟨1, 1⟩
    | Outcome.ok r =>
      if r.timestamps.length = 0 ∧ env.getTsOk = false then ⟨1, 1⟩
      else if env.renderOk = false then ⟨1, 0⟩
      else if env.audioExtractOk = false then ⟨1, 0⟩
      else if env.muxOk = false then ⟨1, 0⟩
      else ⟨0, 1⟩

/-- The conjunction "every external command wrapped in `safeExec` succeeds"
for a pipeline environment. -/
def allSafeExecOk (env : PipelineEnv) : Prop :=
  env.ex.sceneExtractOk = true ∧ env.ex.fixedExtractOk = true ∧
  env.renderOk = true ∧ env.audioExtractOk = true ∧ env.muxOk = true

/-! ### Concrete environments used by counterexamples and witnesses -/

/-- A showinfo line whose matched numeral is `1` followed by 309 zeros: its
value `10^309` exceeds the binary64 overflow threshold, so `parseFloat`
yields `Infinity`, which passes the `isNaN` filter. -/
def bigShowinfoLine : String := "pts_time:1" ++ String.mk (List.replicate 309 '0')

/-- Scene detection emits a single frame while the showinfo pass captures a
single timestamp; the fixed-interval re-extraction then emits three frames,
and the non-empty one-element timestamp list is kept as-is. -/
def envLenMismatch : ExtractEnv :=
  { mkdirOk := true, sceneExtractOk := true,
    showinfoStderr := some "[Parsed_showinfo_0] n:0 pts_time:0 pos:7",
    readdirOk := true, sceneDirListing := ["frame_1.png"],
    fixedExtractOk := true,
    fixedEmitted := ["frame_1.png", "frame_2.png", "frame_3.png"],
    videoInfoOk := true, duration := mkRat 6 1 }

/-- The extraction result produced on `envLenMismatch`: three fixed-interval
frames but one scene-detected timestamp. -/
def resLenMismatch : ExtractionResult :=
  ⟨["frame_1.png", "frame_2.png", "frame_3.png"], true, [JSNum.finite 0]⟩

/-- Showinfo succeeds but matches nothing; scene detection emits two frames,
so the even-division fallback timestamps are synthesized. -/
def envEvenFallback : ExtractEnv :=
  { mkdirOk := true, sceneExtractOk := true,
    showinfoStderr := some "no timestamp lines at all",
    readdirOk := true, sceneDirListing := ["frame_2.png", "frame_1.png"],
    fixedExtractOk := true, fixedEmitted := [],
    videoInfoOk := true, duration := mkRat 4 1 }

/-- The extraction result produced on `envEvenFallback`. -/
def resEvenFallback : ExtractionResult :=
  ⟨["frame_1.png", "frame_2.png"], false, evenTimestamps (mkRat 4 1) 2⟩

/-- Scene detection emits one frame, showinfo captures the timestamp `1.25`;
the fixed-interval re-extraction emits three frames, which end up paired
with the scene-detected timestamp. -/
def envMixedSources : ExtractEnv :=
  { mkdirOk := true, sceneExtractOk := true,
    showinfoStderr := some "[Parsed_showinfo_0] n:0 pts_time:1.25 pos:9",
    readdirOk := true, sceneDirListing := ["frame_1.png"],
    fixedExtractOk := true,
    fixedEmitted := ["frame_1.png", "frame_2.png", "frame_3.png"],
    videoInfoOk := true, duration := mkRat 6 1 }

/-- The extraction result produced on `envMixedSources`: fixed-interval
frames with a scene-detected timestamp, flagged as fallback. -/
def resMixedSources : ExtractionResult :=
  ⟨["frame_1.png", "frame_2.png", "frame_3.png"], true, [JSNum.finite (mkRat 5 4)]⟩

/-- A fully successful scene-detection run: two frames, two timestamps. -/
def envSceneBoth : ExtractEnv :=
  { mkdirOk := true, sceneExtractOk := true,
    showinfoStderr := some "n:0 pts_time:0 pos:1\nn:1 pts_time:2 pos:5",
    readdirOk := true, sceneDirListing := ["frame_1.png", "frame_2.png"],
    fixedExtractOk := true, fixedEmitted := [],
    videoInfoOk := true, duration := mkRat 6 1 }

/-- The extraction result produced on `envSceneBoth`. -/
def resSceneBoth : ExtractionResult :=
  ⟨["frame_1.png", "frame_2.png"], false, [JSNum.finite 0, JSNum.finite 2]⟩

/-- A pipeline run in which everything succeeds until the render command
(wrapped in `safeExec`) fails. -/
def envRenderFail : PipelineEnv :=
  { probeOk := true, ex := envSceneBoth, getTsOk := true,
    renderOk := false, audioExtractOk := true, muxOk := true }

/-- A pipeline run in which every external command succeeds. -/
def envAllOk : PipelineEnv :=
  { probeOk := true, ex := envSceneBoth, getTsOk := true,
    renderOk := true, audioExtractOk := true, muxOk := true }

/-- Scene detection emits a single frame; the fixed-interval re-extraction
emits two well-formed frames. -/
def envFallbackDemo : ExtractEnv :=
  { mkdirOk := true, sceneExtractOk := true,
    showinfoStderr := some "n:0 pts_time:0 pos:1",
    readdirOk := true, sceneDirListing := ["frame_1.png"],
    fixedExtractOk := true, fixedEmitted := ["frame_1.png", "frame_2.png"],
    videoInfoOk := true, duration := mkRat 4 1 }


/-! ## Helper lemmas

The `local semireducible` attributes undo the `@[irreducible]` marking of
the core rational-arithmetic operations so that concrete runs evaluate
inside `decide`; they do not change any definition. -/

section
attribute [local semireducible] Rat.add Rat.sub Rat.mul Rat.inv

lemma segmentDurations_getElem (ts : List ℚ) (dur : ℚ) (n i : ℕ) (hi : i < n) :
    (segmentDurations ts dur n)[i]? = some (segDurAt ts dur i) := by
  simp [segmentDurations, List.getElem?_map, List.getElem?_range hi]

lemma segDurAt_mid (ts : List ℚ) (dur : ℚ) (i : ℕ) (h : i + 1 < ts.length) :
    segDurAt ts dur i = some (ts.getD (i + 1) 0 - ts.getD i 0) := by
  have h0 : i < ts.length := Nat.lt_of_succ_lt h
  have hc : (i : ℤ) < (ts.length : ℤ) - 1 := by omega
  rw [segDurAt, if_pos hc, List.getElem?_eq_getElem h, List.getElem?_eq_getElem h0,
    List.getD_eq_getElem ts 0 h, List.getD_eq_getElem ts 0 h0]

lemma segDurAt_last (ts : List ℚ) (dur : ℚ) (i : ℕ) (h0 : i < ts.length)
    (h : ¬ i + 1 < ts.length) :
    segDurAt ts dur i = some (dur - ts.getD i 0) := by
  have hc : ¬ (i : ℤ) < (ts.length : ℤ) - 1 := by omega
  rw [segDurAt, if_neg hc, List.getElem?_eq_getElem h0, List.getD_eq_getElem ts 0 h0]

lemma segDurAt_succ_cons (a : ℚ) (ts : List ℚ) (dur : ℚ) (i : ℕ) :
    segDurAt (a :: ts) dur (i + 1) = segDurAt ts dur i := by
  by_cases hc : (i : ℤ) < (ts.length : ℤ) - 1
  · have hc' : ((i + 1 : ℕ) : ℤ) < (((a :: ts).length : ℕ) : ℤ) - 1 := by
      simp only [List.length_cons]; push_cast; omega
    rw [segDurAt, segDurAt, if_pos hc, if_pos hc']
    simp [List.getElem?_cons_succ]
  · have hc' : ¬ ((i + 1 : ℕ) : ℤ) < (((a :: ts).length : ℕ) : ℤ) - 1 := by
      simp only [List.length_cons]; push_cast; omega
    rw [segDurAt, segDurAt, if_neg hc, if_neg hc']
    simp [List.getElem?_cons_succ]

lemma segmentDurations_cons (a b : ℚ) (r : List ℚ) (dur : ℚ) :
    segmentDurations (a :: b :: r) dur (r.length + 2) =
      some (b - a) :: segmentDurations (b :: r) dur (r.length + 1) := by
  show (List.range (r.length + 1 + 1)).map (segDurAt (a :: b :: r) dur) = _
  rw [List.range_succ_eq_map, List.map_cons, List.map_map]
  congr 1
  · have hmid : (0 : ℕ) + 1 < (a :: b :: r).length := by simp
    rw [segDurAt_mid (a :: b :: r) dur 0 hmid]
    simp
  · rw [segmentDurations]
    apply List.map_eq_map_iff.mpr
    intro i _
    exact segDurAt_succ_cons a (b :: r) dur i

lemma sumDurations_segmentDurations (a : ℚ) (rest : List ℚ) (dur : ℚ) :
    sumDurations (segmentDurations (a :: rest) dur (rest.length + 1)) = some (dur - a) := by
  induction rest generalizing a with
  | nil =>
    show sumDurations ((List.range 1).map (segDurAt [a] dur)) = _
    rw [show List.range 1 = [0] from rfl, List.map_cons, List.map_nil,
      segDurAt_last [a] dur 0 (by simp) (by simp)]
    show some ((dur - [a].getD 0 0) + 0) = some (dur - a)
    simp
  | cons b r ih =>
    rw [show (b :: r).length + 1 = r.length + 2 from by simp,
      segmentDurations_cons a b r dur]
    show (match (some (b - a) : Option ℚ),
        sumDurations (segmentDurations (b :: r) dur (r.length + 1)) with
      | some d, some s => some (d + s)
      | _, _ => none) = some (dur - a)
    rw [ih b]
    show some ((b - a) + (dur - b)) = some (dur - a)
    exact congrArg some (by ring)

lemma decimalValue_nonneg (ip fp : List Char) : 0 ≤ decimalValue ip fp := by
  rw [decimalValue, Rat.mkRat_eq_divInt]
  exact Rat.divInt_nonneg (Int.ofNat_nonneg _) (Int.ofNat_nonneg _)

lemma jsParseFloat_nonneg (s : List Char) (q : ℚ) (h : jsParseFloat s = some q) :
    0 ≤ q := by
  unfold jsParseFloat at h
  dsimp only at h
  split at h
  · cases h
  · split at h
    · cases h
    · injection h with h; rw [← h]; exact decimalValue_nonneg _ _
  · split at h
    · split at h <;> (injection h with h; rw [← h]; exact decimalValue_nonneg _ _)
    · cases h

lemma finishExtraction_ok (u : Bool) (frames : List String) (ts : List JSNum)
    (env : ExtractEnv) (r : ExtractionResult)
    (h : finishExtraction u frames ts env = Outcome.ok r) :
    r.frameFiles = frames ∧ r.usedRegularIntervals = u ∧
    r.timestamps = (if ts.length = 0 ∧ 0 < frames.length
      then evenTimestamps env.duration frames.length else ts) := by
  unfold finishExtraction at h
  by_cases hcond : ts.length = 0 ∧ 0 < frames.length
  · rw [if_pos hcond] at h
    by_cases hv : env.videoInfoOk = false
    · rw [if_pos hv] at h; cases h
    · rw [if_neg hv] at h
      injection h with h
      rw [← h]
      exact ⟨rfl, rfl, by rw [if_pos hcond]⟩
  · rw [if_neg hcond] at h
    injection h with h
    rw [← h]
    exact ⟨rfl, rfl, by rw [if_neg hcond]⟩

lemma extractStills_ok_cases (env : ExtractEnv) (r : ExtractionResult)
    (h : extractStills env = Outcome.ok r) :
    ∃ u frames,
      finishExtraction u frames (sceneTsOf env) env = Outcome.ok r ∧
      ((u = true ∧ ∃ frames0, listFrames env.sceneDirListing = Except.ok frames0 ∧
          frames0.length < 2 ∧
          listFrames (dirAfterFallback env frames0) = Except.ok frames) ∨
        (u = env.showinfoStderr.isNone ∧
          listFrames env.sceneDirListing = Except.ok frames ∧ ¬ frames.length < 2)) := by
  unfold extractStills at h
  by_cases h1 : env.mkdirOk = false
  · rw [if_pos h1] at h; cases h
  rw [if_neg h1] at h
  by_cases h2 : env.sceneExtractOk = false
  · rw [if_pos h2] at h; cases h
  rw [if_neg h2] at h
  by_cases h3 : env.readdirOk = false
  · rw [if_pos h3] at h; cases h
  rw [if_neg h3] at h
  cases hlf : listFrames env.sceneDirListing with
  | error e => simp only [hlf] at h; cases h
  | ok frames0 =>
    simp only [hlf] at h
    by_cases h4 : frames0.length < 2
    · rw [if_pos h4] at h
      by_cases h5 : env.fixedExtractOk = false
      · rw [if_pos h5] at h; cases h
      rw [if_neg h5] at h
      cases hlf2 : listFrames (dirAfterFallback env frames0) with
      | error e => simp only [hlf2] at h; cases h
      | ok frames1 =>
        simp only [hlf2] at h
        exact ⟨true, frames1, h, Or.inl ⟨rfl, frames0, rfl, h4, hlf2⟩⟩
    · rw [if_neg h4] at h
      exact ⟨env.showinfoStderr.isNone, frames0, h, Or.inr ⟨rfl, rfl, h4⟩⟩

lemma insertByKey_perm (x : String) (l : List String) :
    (insertByKey x l).Perm (x :: l) := by
  induction l with
  | nil => exact List.Perm.refl _
  | cons y ys ih =>
    rw [insertByKey]
    by_cases hk : frameKey x ≤ frameKey y
    · rw [if_pos hk]
    · rw [if_neg hk]
      exact (ih.cons y).trans (List.Perm.swap x y ys)

lemma sortByKey_perm (l : List String) : (sortByKey l).Perm l := by
  induction l with
  | nil => exact List.Perm.refl _
  | cons x xs ih => exact (insertByKey_perm x (sortByKey xs)).trans (ih.cons x)

lemma listFrames_ok_of_wellformed (files : List String)
    (h : ∀ f ∈ files.filter frameFilter, (findFrameNum f.toList).isSome = true) :
    ∃ l, listFrames files = Except.ok l ∧ l.Perm (files.filter frameFilter) := by
  unfold listFrames
  dsimp only
  by_cases hlen : (files.filter frameFilter).length ≤ 1
  · rw [if_pos hlen]
    exact ⟨_, rfl, List.Perm.refl _⟩
  · rw [if_neg hlen, if_pos (List.all_eq_true.mpr h)]
    exact ⟨_, rfl, sortByKey_perm _⟩

lemma listFrames_short (files : List String)
    (h : (files.filter frameFilter).length ≤ 1) :
    listFrames files = Except.ok (files.filter frameFilter) := by
  unfold listFrames
  dsimp only
  rw [if_pos h]

lemma dirAfterFallback_filter (env : ExtractEnv)
    (h6 : ∀ f ∈ env.fixedEmitted, frameFilter f = true) :
    (dirAfterFallback env (env.sceneDirListing.filter frameFilter)).filter frameFilter
      = env.fixedEmitted := by
  rw [dirAfterFallback, List.filter_append]
  have h1 : (env.sceneDirListing.filter
      (fun f => !((env.sceneDirListing.filter frameFilter).contains f))).filter frameFilter
      = [] := by
    rw [List.filter_eq_nil_iff]
    intro a ha hff
    rw [List.mem_filter] at ha
    obtain ⟨hmem, hnc⟩ := ha
    have hin : a ∈ env.sceneDirListing.filter frameFilter :=
      List.mem_filter.mpr ⟨hmem, hff⟩
    simp [hin] at hnc
  rw [h1, List.nil_append]
  exact List.filter_eq_self.mpr h6

lemma finishExtraction_ne_exit1 (u : Bool) (frames : List String) (ts : List JSNum)
    (env : ExtractEnv) : finishExtraction u frames ts env ≠ Outcome.exit1 := by
  unfold finishExtraction
  by_cases hcond : ts.length = 0 ∧ 0 < frames.length
  · rw [if_pos hcond]
    by_cases hv : env.videoInfoOk = false
    · rw [if_pos hv]; intro hc; cases hc
    · rw [if_neg hv]; intro hc; cases hc
  · rw [if_neg hcond]; intro hc; cases hc

lemma extractStills_ne_exit1 (env : ExtractEnv)
    (h2 : env.sceneExtractOk = true) (h5 : env.fixedExtractOk = true) :
    extractStills env ≠ Outcome.exit1 := by
  unfold extractStills
  by_cases h1 : env.mkdirOk = false
  · rw [if_pos h1]; intro hc; cases hc
  rw [if_neg h1, if_neg (by simp [h2])]
  by_cases h3 : env.readdirOk = false
  · rw [if_pos h3]; intro hc; cases hc
  rw [if_neg h3]
  cases hlf : listFrames env.sceneDirListing with
  | error e => intro hc; cases hc
  | ok frames0 =>
    dsimp only
    by_cases h4 : frames0.length < 2
    · rw [if_pos h4, if_neg (by simp [h5])]
      cases hlf2 : listFrames (dirAfterFallback env frames0) with
      | error e => intro hc; cases hc
      | ok frames1 => exact finishExtraction_ne_exit1 _ _ _ _
    · rw [if_neg h4]
      exact finishExtraction_ne_exit1 _ _ _ _

end


/-! ## Claims -/

section
attribute [local semireducible] Rat.add Rat.sub Rat.mul Rat.inv

/-- C1, counterexample: `extractStills` can return at least one frame with a
timestamp sequence of a different length.  On `envLenMismatch` the scene pass
yields one frame and one showinfo timestamp; the fixed-interval re-extraction
yields three frames, yet the non-empty one-element timestamp sequence is kept
(the code checks only for emptiness, not for a length mismatch). -/
theorem extract_length_mismatch_cex :
    extractStills envLenMismatch = Outcome.ok resLenMismatch ∧
    0 < resLenMismatch.frameFiles.length ∧
    resLenMismatch.timestamps.length ≠ resLenMismatch.frameFiles.length := by
  refine ⟨?_, ?_, ?_⟩ <;> decide

/-- C1, amended: the fallback timestamp synthesis runs only when the showinfo
timestamp sequence is empty (and at least one frame exists) — in that case
`|timestamps| = |frames|` holds on return; a non-empty showinfo sequence is
returned unchanged, whether or not its length matches the frame count. -/
theorem extract_timestamp_fallback (env : ExtractEnv) (r : ExtractionResult)
    (h : extractStills env = Outcome.ok r) :
    (sceneTsOf env = [] → 0 < r.frameFiles.length →
      r.timestamps.length = r.frameFiles.length) ∧
    (sceneTsOf env ≠ [] → r.timestamps = sceneTsOf env) := by
  obtain ⟨u, frames, hfin, -⟩ := extractStills_ok_cases env r h
  obtain ⟨hf, -, hts⟩ := finishExtraction_ok u frames (sceneTsOf env) env r hfin
  constructor
  · intro hempty hpos
    rw [hf] at hpos
    rw [hts, if_pos ⟨by rw [hempty]; rfl, hpos⟩, hf, evenTimestamps,
      List.length_map, List.length_range]
  · intro hne
    rw [hts, if_neg (fun hc => hne (List.length_eq_zero.mp hc.1))]

/-- C1, witness for the amended statement: on `envEvenFallback` (showinfo
parsed nothing, two scene frames) the synthesized timestamps match the frame
count. -/
theorem extract_timestamp_fallback_witness :
    resEvenFallback.timestamps.length = resEvenFallback.frameFiles.length := by
  have h := extract_timestamp_fallback envEvenFallback resEvenFallback (by decide)
  exact h.1 (by decide) (by decide)

/-- C2, counterexample: an `ExtractionResult` with `usedFallback = true`
whose frames come from the fixed-interval re-extraction while its timestamps
are the scene-detected showinfo sequence (`[1.25]`), not the fixed-interval
sequence — the sources are mixed. -/
theorem extract_mixed_sources_cex :
    extractStills envMixedSources = Outcome.ok resMixedSources ∧
    resMixedSources.usedRegularIntervals = true ∧
    resMixedSources.timestamps = sceneTsOf envMixedSources ∧
    resMixedSources.timestamps
      ≠ evenTimestamps envMixedSources.duration resMixedSources.frameFiles.length := by
  refine ⟨?_, ?_, ?_, ?_⟩ <;> decide

/-- C2, amended: `usedRegularIntervals` does not govern the timestamp
source.  The returned timestamps are the showinfo scene timestamps whenever
those are non-empty and the even-division fallback otherwise, regardless of
the flag; when the flag is `false` the frames do come from the
scene-detection listing (at least 2 of them) and the showinfo pass did not
throw. -/
theorem extract_timestamp_source_independent (env : ExtractEnv) (r : ExtractionResult)
    (h : extractStills env = Outcome.ok r) :
    (r.timestamps = if sceneTsOf env = [] ∧ 0 < r.frameFiles.length
      then evenTimestamps env.duration r.frameFiles.length else sceneTsOf env) ∧
    (r.usedRegularIntervals = false →
      listFrames env.sceneDirListing = Except.ok r.frameFiles ∧
      env.showinfoStderr.isSome = true ∧ 2 ≤ r.frameFiles.length) := by
  obtain ⟨u, frames, hfin, hcases⟩ := extractStills_ok_cases env r h
  obtain ⟨hf, hu, hts⟩ := finishExtraction_ok u frames (sceneTsOf env) env r hfin
  constructor
  · rw [hts, hf]
    by_cases hc : sceneTsOf env = [] ∧ 0 < frames.length
    · rw [if_pos ⟨by rw [hc.1]; rfl, hc.2⟩, if_pos hc]
    · rw [if_neg (fun hl => hc ⟨List.length_eq_zero.mp hl.1, hl.2⟩), if_neg hc]
  · intro hreg
    rw [hu] at hreg
    rcases hcases with ⟨htrue, -⟩ | ⟨hu2, hlf, hlen⟩
    · rw [htrue] at hreg; cases hreg
    · rw [hu2] at hreg
      refine ⟨hf ▸ hlf, ?_, ?_⟩
      · cases hs : env.showinfoStderr with
        | none => rw [hs] at hreg; cases hreg
        | some s => rfl
      · rw [hf]; omega

/-- C2, witness for the amended statement: on `envSceneBoth` the flag is
`false`, the frames are the scene listing and showinfo did not throw. -/
theorem extract_timestamp_source_independent_witness :
    listFrames envSceneBoth.sceneDirListing = Except.ok resSceneBoth.frameFiles ∧
    envSceneBoth.showinfoStderr.isSome = true ∧ 2 ≤ resSceneBoth.frameFiles.length := by
  have h := extract_timestamp_source_independent envSceneBoth resSceneBoth (by decide)
  exact h.2 (by decide)

/-- C3, counterexample: the duration computation never fails — on
timestamps `[0, 5, 3]` with total duration `10` it returns the segment list
`[5, -2, 7]` containing a negative duration instead of raising any
`TimelineError` (the source has no positivity check). -/
theorem reconcile_nonpositive_cex :
    segmentDurations [0, 5, 3] 10 3 = [some 5, some (-2), some 7] ∧
    ¬ (0 : ℚ) < -2 := by
  constructor
  · decide
  · decide

/-- C3, amended: the reconciliation is total and performs no positivity
check; every returned duration is positive exactly under the well-formedness
conditions — strictly increasing timestamps whose last entry stays below the
total duration. -/
theorem reconcile_durations_pos (ts : List ℚ) (dur : ℚ) (n : ℕ)
    (hlen : ts.length = n) (hmono : ts.Chain' (· < ·))
    (hlast : 0 < n → ts.getD (n - 1) 0 < dur) :
    ∀ o ∈ segmentDurations ts dur n, ∃ d, o = some d ∧ 0 < d := by
  intro o ho
  rw [segmentDurations, List.mem_map] at ho
  obtain ⟨i, hir, rfl⟩ := ho
  rw [List.mem_range] at hir
  by_cases hmid : i + 1 < n
  · refine ⟨ts.getD (i + 1) 0 - ts.getD i 0, segDurAt_mid ts dur i (by omega), ?_⟩
    have hstep := List.chain'_iff_get.mp hmono i (by omega)
    rw [List.get_eq_getElem, List.get_eq_getElem] at hstep
    rw [List.getD_eq_getElem ts 0 (by omega : i + 1 < ts.length),
      List.getD_eq_getElem ts 0 (by omega : i < ts.length)]
    exact sub_pos.mpr hstep
  · refine ⟨dur - ts.getD i 0, segDurAt_last ts dur i (by omega) (by omega), ?_⟩
    have hi : i = n - 1 := by omega
    subst hi
    exact sub_pos.mpr (hlast (by omega))

/-- C3, witness for the amended statement at timestamps `[0, 3, 7]`,
duration `10`. -/
theorem reconcile_durations_pos_witness :
    ∃ d, (segmentDurations [0, 3, 7] 10 3).getD 0 (some 0) = some d ∧ 0 < d := by
  exact reconcile_durations_pos [0, 3, 7] 10 3 rfl
    (by repeat constructor <;> norm_num) (fun _ => by decide)
    ((segmentDurations [0, 3, 7] 10 3).getD 0 (some 0)) (by decide)

/-- C4, counterexample: a pipeline run whose render command fails exits with
status 1 without ever running the workspace cleanup — `safeExec` calls
`process.exit(1)` directly, bypassing both the success-path and the
catch-path `cleanup([TEMP_DIR])`. -/
theorem pipeline_no_cleanup_cex :
    (processVideo envRenderFail).exitCode = 1 ∧
    (processVideo envRenderFail).cleanupRuns = 0 := by
  refine ⟨?_, ?_⟩ <;> decide

/-- C4, amended: cleanup never runs more than once; it runs exactly once on
the success path and on every failure that reaches `processVideo`'s catch
(and teardown itself never throws, each loop iteration being guarded), but a
failing `safeExec`-wrapped command exits the process without teardown. -/
theorem pipeline_cleanup_amended (env : PipelineEnv) :
    (processVideo env).cleanupRuns ≤ 1 ∧
    ((processVideo env).exitCode = 0 → (processVideo env).cleanupRuns = 1) ∧
    (allSafeExecOk env → (processVideo env).cleanupRuns = 1) := by
  refine ⟨?_, ?_, ?_⟩
  · unfold processVideo
    split
    · exact Nat.le_refl 1
    · split
      · exact Nat.zero_le 1
      · exact Nat.le_refl 1
      · split
        · exact Nat.le_refl 1
        · split
          · exact Nat.zero_le 1
          · split
            · exact Nat.zero_le 1
            · split
              · exact Nat.zero_le 1
              · exact Nat.le_refl 1
  · unfold processVideo
    split
    · intro hc; cases hc
    · split
      · intro hc; cases hc
      · intro hc; cases hc
      · split
        · intro hc; cases hc
        · split
          · intro hc; cases hc
          · split
            · intro hc; cases hc
            · split
              · intro hc; cases hc
              · intro _; rfl
  · intro hsafe
    obtain ⟨hs, hfx, hr, ha, hm⟩ := hsafe
    have hne := extractStills_ne_exit1 env.ex hs hfx
    unfold processVideo
    split
    · rfl
    · cases hex : extractStills env.ex with
      | exit1 => exact absurd hex hne
      | thrown => simp only [hex]
      | ok r =>
        simp only [hex]
        by_cases hts : r.timestamps.length = 0 ∧ env.getTsOk = false
        · rw [if_pos hts]
        · rw [if_neg hts, if_neg (by simp [hr]), if_neg (by simp [ha]),
            if_neg (by simp [hm])]

/-- C4, witness for the amended statement: a fully successful run tears the
workspace down exactly once. -/
theorem pipeline_cleanup_amended_witness :
    (processVideo envAllOk).cleanupRuns = 1 :=
  (pipeline_cleanup_amended envAllOk).2.2 ⟨rfl, rfl, rfl, rfl, rfl⟩

/-- C5: `planGeometry` is a pure function of the probed asset; for positive
source dimensions, height ≥ 2160 selects the 2160×3840 canvas and any other
height the 608×1080 canvas; `scaleFactor = portraitHeight / height`,
`scaledWidth = round (width * scaleFactor)` (JavaScript `Math.round`), and
`panDistance = scaledWidth - portraitWidth` (possibly negative). -/
theorem planGeometry_spec (w h : ℤ) (d : ℚ) (hw : 0 < w) (hh : 0 < h) :
    ((2160 ≤ h → (planGeometry ⟨w, h, d⟩).portraitWidth = 2160 ∧
        (planGeometry ⟨w, h, d⟩).portraitHeight = 3840) ∧
      (h < 2160 → (planGeometry ⟨w, h, d⟩).portraitWidth = 608 ∧
        (planGeometry ⟨w, h, d⟩).portraitHeight = 1080)) ∧
    (planGeometry ⟨w, h, d⟩).scaleFactor =
      ((planGeometry ⟨w, h, d⟩).portraitHeight : ℚ) / (h : ℚ) ∧
    (planGeometry ⟨w, h, d⟩).scaledWidth =
      round ((w : ℚ) * (planGeometry ⟨w, h, d⟩).scaleFactor) ∧
    (planGeometry ⟨w, h, d⟩).panDistance =
      (planGeometry ⟨w, h, d⟩).scaledWidth - (planGeometry ⟨w, h, d⟩).portraitWidth ∧
    ∀ a : AssetInfo, a = ⟨w, h, d⟩ → planGeometry a = planGeometry ⟨w, h, d⟩ := by
  refine ⟨⟨fun hge => ?_, fun hlt => ?_⟩, ?_, ?_, ?_, fun a ha => by rw [ha]⟩
  · simp [planGeometry, hge]
  · have hc : ¬ 2160 ≤ h := by omega
    simp [planGeometry, hc]
  · by_cases hc : 2160 ≤ h <;> simp [planGeometry, hc]
  · by_cases hc : 2160 ≤ h <;> simp [planGeometry, hc]
  · by_cases hc : 2160 ≤ h <;> simp [planGeometry, hc]

/-- C5, witness: a 1920×1080 source selects the 608×1080 canvas. -/
theorem planGeometry_spec_witness :
    (planGeometry ⟨1920, 1080, 10⟩).portraitWidth = 608 ∧
    (planGeometry ⟨1920, 1080, 10⟩).portraitHeight = 1080 :=
  ((planGeometry_spec 1920 1080 10 (by norm_num) (by norm_num)).1).2 (by norm_num)

/-- C6: with `n` frames and `n` timestamps, the duration of frame `i` is
`timestamps[i+1] - timestamps[i]` for every non-final index and
`durationSeconds - timestamps[i]` for the final index. -/
theorem reconcile_duration_formula (ts : List ℚ) (dur : ℚ) (n i : ℕ)
    (hlen : ts.length = n) (hi : i < n) :
    (i + 1 < n →
      (segmentDurations ts dur n)[i]? = some (some (ts.getD (i + 1) 0 - ts.getD i 0))) ∧
    (i + 1 = n →
      (segmentDurations ts dur n)[i]? = some (some (dur - ts.getD i 0))) := by
  constructor
  · intro hmid
    rw [segmentDurations_getElem ts dur n i hi, segDurAt_mid ts dur i (by omega)]
  · intro hlast
    rw [segmentDurations_getElem ts dur n i hi, segDurAt_last ts dur i (by omega) (by omega)]

/-- C6, witness at timestamps `[0, 3, 7]`, duration `10`: a middle index and
the final index. -/
theorem reconcile_duration_formula_witness :
    (segmentDurations [0, 3, 7] 10 3)[1]? = some (some ((7 : ℚ) - 3)) ∧
    (segmentDurations [0, 3, 7] 10 3)[2]? = some (some ((10 : ℚ) - 7)) := by
  constructor
  · have h := (reconcile_duration_formula [0, 3, 7] 10 3 1 rfl (by omega)).1 (by omega)
    simpa using h
  · have h := (reconcile_duration_formula [0, 3, 7] 10 3 2 rfl (by omega)).2 rfl
    simpa using h

/-- C7, counterexample: with timestamps `[5, 6]` over a 10-second asset the
durations sum to `5`, which is not within `1/1000` of `10` — the sum
telescopes to `durationSeconds - timestamps[0]`, not to `durationSeconds`. -/
theorem reconcile_sum_cex :
    sumDurations (segmentDurations [5, 6] 10 2) = some 5 ∧
    ¬ |(5 : ℚ) - 10| ≤ 1 / 1000 := by
  constructor
  · decide
  · rw [show (5 : ℚ) - 10 = -5 by norm_num, abs_neg,
      abs_of_nonneg (by norm_num : (0 : ℚ) ≤ 5)]
    norm_num

/-- C7, amended: for `n` frames with `n` timestamps the durations sum
exactly to `durationSeconds - timestamps[0]`; in particular the sum is
within `1/1000` of `durationSeconds` whenever `|timestamps[0]| ≤ 1/1000`
(so exactly `durationSeconds` when the sequence starts at 0, as the
even-division fallback does). -/
theorem reconcile_sum_amended (ts : List ℚ) (dur : ℚ) (n : ℕ) (a : ℚ) (rest : List ℚ)
    (hts : ts = a :: rest) (hlen : ts.length = n) :
    sumDurations (segmentDurations ts dur n) = some (dur - a) ∧
    (|a| ≤ 1 / 1000 →
      ∃ s, sumDurations (segmentDurations ts dur n) = some s ∧ |s - dur| ≤ 1 / 1000) := by
  subst hts
  have hn : n = rest.length + 1 := by simpa using hlen.symm
  subst hn
  refine ⟨sumDurations_segmentDurations a rest dur, ?_⟩
  intro ha
  refine ⟨dur - a, sumDurations_segmentDurations a rest dur, ?_⟩
  rw [show dur - a - dur = -a by ring, abs_neg]
  exact ha

/-- C7, witness for the amended statement at timestamps `[0, 5]`, duration
`10`. -/
theorem reconcile_sum_amended_witness :
    ∃ s, sumDurations (segmentDurations [0, 5] 10 2) = some s ∧ |s - 10| ≤ 1 / 1000 :=
  (reconcile_sum_amended [0, 5] 10 2 0 [5] rfl rfl).2 (by norm_num)

/-- C8: every returned timestamp originates from a line whose first
`pts_time:` marker matched; a line with no match contributes nothing; a
match whose numeral fails to parse (NaN) contributes nothing; and a stream
in which no line contributes yields the empty sequence as an ordinary return
value. -/
theorem showinfo_parsing_spec (stderr : String) :
    (∀ t ∈ extractSceneTimestampsFromShowinfo stderr,
      ∃ line ∈ splitOnNl stderr.toList,
        (captureAfterMarker line).isSome = true ∧ lineTimestamp line = some t) ∧
    (∀ line, captureAfterMarker line = none → lineTimestamp line = none) ∧
    (∀ line cap, captureAfterMarker line = some cap → jsParseFloat cap = none →
      lineTimestamp line = none) ∧
    ((∀ line ∈ splitOnNl stderr.toList, lineTimestamp line = none) →
      extractSceneTimestampsFromShowinfo stderr = []) := by
  refine ⟨?_, ?_, ?_, ?_⟩
  · intro t ht
    rw [extractSceneTimestampsFromShowinfo, List.mem_filterMap] at ht
    obtain ⟨line, hline, hts⟩ := ht
    refine ⟨line, hline, ?_, hts⟩
    cases hcap : captureAfterMarker line with
    | none => unfold lineTimestamp at hts; simp only [hcap] at hts; cases hts
    | some cap => rfl
  · intro line hcap
    unfold lineTimestamp
    simp only [hcap]
  · intro line cap hcap hparse
    unfold lineTimestamp
    simp only [hcap, hparse]
  · intro hall
    rw [extractSceneTimestampsFromShowinfo]
    exact List.filterMap_eq_nil_iff.mpr hall

/-- C8, witness: a two-line stream without any marker yields `[]`. -/
theorem showinfo_parsing_spec_witness :
    extractSceneTimestampsFromShowinfo "frame picked\nscene cut detected" = [] :=
  (showinfo_parsing_spec "frame picked\nscene cut detected").2.2.2 (by decide)

/-- C9: whenever the scene-detection pass leaves fewer than 2 matching
frames (and the fixed-interval commands succeed on well-formed names), the
returned result has `usedFallback = true` and its frames are exactly the
files written by the fixed-interval re-extraction — the scene frames were
deleted and do not appear. -/
theorem extract_fallback_spec (env : ExtractEnv)
    (h1 : env.mkdirOk = true) (h2 : env.sceneExtractOk = true) (h3 : env.readdirOk = true)
    (h4 : (env.sceneDirListing.filter frameFilter).length < 2)
    (h5 : env.fixedExtractOk = true)
    (h6 : ∀ f ∈ env.fixedEmitted,
      frameFilter f = true ∧ (findFrameNum f.toList).isSome = true)
    (h7 : env.videoInfoOk = true) :
    ∃ r, extractStills env = Outcome.ok r ∧ r.usedRegularIntervals = true ∧
      r.frameFiles.Perm env.fixedEmitted := by
  have hsc : listFrames env.sceneDirListing
      = Except.ok (env.sceneDirListing.filter frameFilter) :=
    listFrames_short _ (by omega)
  have hfilter := dirAfterFallback_filter env (fun f hf => (h6 f hf).1)
  obtain ⟨frames1, hlf2, hperm⟩ :=
    listFrames_ok_of_wellformed (dirAfterFallback env (env.sceneDirListing.filter frameFilter))
      (by rw [hfilter]; exact fun f hf => (h6 f hf).2)
  rw [hfilter] at hperm
  have hstep : extractStills env
      = finishExtraction true frames1 (sceneTsOf env) env := by
    unfold extractStills
    rw [if_neg (by simp [h1]), if_neg (by simp [h2]), if_neg (by simp [h3])]
    simp only [hsc]
    rw [if_pos h4, if_neg (by simp [h5])]
    simp only [hlf2]
  unfold finishExtraction at hstep
  by_cases hcond : (sceneTsOf env).length = 0 ∧ 0 < frames1.length
  · rw [if_pos hcond, if_neg (by simp [h7])] at hstep
    exact ⟨_, hstep, rfl, hperm⟩
  · rw [if_neg hcond] at hstep
    exact ⟨_, hstep, rfl, hperm⟩

/-- C9, witness: one scene frame, two fixed-interval frames. -/
theorem extract_fallback_spec_witness :
    ∃ r, extractStills envFallbackDemo = Outcome.ok r ∧
      r.usedRegularIntervals = true ∧
      r.frameFiles.Perm envFallbackDemo.fixedEmitted :=
  extract_fallback_spec envFallbackDemo rfl rfl rfl (by decide) rfl (by decide) rfl

/-- C10, counterexample: a line whose matched numeral is `10^309` parses to
`Infinity` (binary64 overflow), which passes the `isNaN` filter and is
returned — the parser is not confined to finite values. -/
theorem showinfo_infinite_cex :
    extractSceneTimestampsFromShowinfo bigShowinfoLine = [JSNum.inf] := by
  decide

/-- C10, amended: every returned timestamp is either a finite non-negative
value below the binary64 overflow threshold, or `Infinity`; NaN and negative
values never occur (the matched numerals contain only digits and dots, and
NaN is filtered out). -/
theorem showinfo_timestamps_nonneg (stderr : String) :
    ∀ t ∈ extractSceneTimestampsFromShowinfo stderr,
      (∃ q : ℚ, t = JSNum.finite q ∧ 0 ≤ q ∧ q < binary64OverflowThreshold) ∨
      t = JSNum.inf := by
  intro t ht
  rw [extractSceneTimestampsFromShowinfo, List.mem_filterMap] at ht
  obtain ⟨line, -, hts⟩ := ht
  unfold lineTimestamp at hts
  cases hcap : captureAfterMarker line with
  | none => simp only [hcap] at hts; cases hts
  | some cap =>
    simp only [hcap] at hts
    cases hq : jsParseFloat cap with
    | none => simp only [hq] at hts; cases hts
    | some q =>
      simp only [hq] at hts
      injection hts with hts
      rw [← hts]
      unfold jsDouble
      by_cases hinf : binary64OverflowThreshold ≤ q
      · rw [if_pos hinf]; right; rfl
      · rw [if_neg hinf]
        exact Or.inl ⟨q, rfl, jsParseFloat_nonneg cap q hq, not_le.mp hinf⟩

/-- C10, witness for the amended statement at the stream `pts_time:2`. -/
theorem showinfo_timestamps_nonneg_witness :
    (∃ q : ℚ, JSNum.finite (mkRat 2 1) = JSNum.finite q ∧ 0 ≤ q ∧
      q < binary64OverflowThreshold) ∨ JSNum.finite (mkRat 2 1) = JSNum.inf :=
  showinfo_timestamps_nonneg "pts_time:2" (JSNum.finite (mkRat 2 1)) (by decide)

end

end SFHighlight
